import Mathlib

/-!
Shallow embedding of the `hmc_profile_diff` repository
(`src/hmc_profile_diff.py` and `src/common/hmc_lpar_attribs.py`).

The embedding models:
- the diff engine (key padding, `samevalues`, the `difftable` loop,
  `hmc_profile_diff.py` lines 142-176);
- the session lifecycle (`HMC.logon`, `HMC.logoff`, `HMC.check_connected`,
  `HMC.cleanup` in `hmc_lpar_attribs.py`), with the HTTP transport abstracted
  as the status codes and token the remote host would return, and `sys.exit`
  modelled as an explicit exit code in the result;
- the profile fetch `HMC.get_lpar_config`, with the two XML documents
  abstracted into association lists of element texts
  (an `ElementTree.find('.//tag')` miss is absence from the list, a present
  element with no text is `(tag, none)`), and the Python `AttributeError`
  raised by `adapter.find(attrib).text` on a missing child modelled as
  `Except.error "AttributeError"`;
- the per-host failover loop of `hmc_profile_diff.py` lines 97-116, with the
  session open / fetch / close side effects recorded as an event trace.

Profile-record keys in the Python code are flat strings of the shape
`Group_rest` where the group name (`General`, `Processor`, `Memory`,
`Network`, `vFC`, `vSCSI`) contains no underscore.  We model a key by its
two components and recover the flat string with `Key.render`; the Python
`k.startswith(primarykey)` over the produced keys is exactly equality of the
group component (no group name is a prefix of a key of another group), and
`k.split("_", 1)[1]` / `k.rsplit("_", 1)[1]` are computed on `render`
character lists by `afterFirstUnderscoreL` / `afterLastUnderscoreL`.
-/

namespace HmcDiff

/-- The six attribute groups of the tool (primarykeys, line 160 of
`hmc_profile_diff.py`). -/
inductive Group where
  | general
  | processor
  | memory
  | network
  | vfc
  | vscsi
deriving DecidableEq, Repr

/-- The flat-key group name used by the Python code. -/
def Group.name : Group → String
  | .general => "General"
  | .processor => "Processor"
  | .memory => "Memory"
  | .network => "Network"
  | .vfc => "vFC"
  | .vscsi => "vSCSI"

/-- The three adapter groups, which `hmc_profile_diff.py` line 164 singles
out when deriving the display name. -/
def Group.isAdapter : Group → Bool
  | .network => true
  | .vfc => true
  | .vscsi => true
  | _ => false

/-- A profile-record key: the Python code's flat string `Group_rest`. -/
structure Key where
  group : Group
  rest : String
deriving DecidableEq, Repr

/-- The flat string key as built by `get_lpar_config`
(e.g. `General_PartitionType`, `Network_VirtualEthAdapter_0_PortVLANID`). -/
def Key.render (k : Key) : String := k.group.name ++ "_" ++ k.rest

/-- A stored attribute value: `ElementTree` element text, which is a string
or Python `None` (a present element with no text). -/
abbrev Value := Option String

/-- A profile record: the dictionary built by `get_lpar_config`, as an
association list (first binding wins, like a dict snapshot). -/
abbrev ProfileRecord := List (Key × Value)

/-- The keys of a record (`lparN_data.keys()`). -/
def keysOf (r : ProfileRecord) : List Key := r.map Prod.fst

/-- Python `k in lpar_data`. -/
def hasKey (r : ProfileRecord) (k : Key) : Bool := (List.lookup k r).isSome

/-- Python `lpar_data[k]` on a key known to be present (lookup misses
collapse to `none`, which the diff loop never hits). -/
def getVal (r : ProfileRecord) (k : Key) : Value := (List.lookup k r).getD none

/-- `allkeys = set(lpar1_data.keys()) | set(lpar2_data.keys())`
(lines 143-145). -/
def allkeys (a b : ProfileRecord) : List Key := (keysOf a ++ keysOf b).dedup

/-- The in-place padding loop of lines 146-150 applied to the first record:
every union key missing from `r` is appended with the literal value
`'missing'`. -/
def pad (r other : ProfileRecord) : ProfileRecord :=
  r ++ ((allkeys r other).filter (fun k => !hasKey r k)).map
    (fun k => (k, (some "missing" : Value)))

/-- `samevalues = [k for k in lpar1_data if lpar1_data[k] == lpar2_data[k]]`
(line 153), over the padded records; every iterated key is present in both
padded dicts, so dict access is the association-list lookup. -/
def samevalues (p1 p2 : ProfileRecord) : List Key :=
  (keysOf p1).filter (fun k => List.lookup k p1 == List.lookup k p2)

/-- `primarykeys = ['General', 'Processor', 'Memory', 'Network', 'vFC',
'vSCSI']` (line 160). -/
def primarykeys : List Group :=
  [.general, .processor, .memory, .network, .vfc, .vscsi]

/-- Code-point comparison of two characters (the order Python string
comparison uses). -/
def charLt (c d : Char) : Bool := c.toNat < d.toNat

/-- Lexicographic code-point order on character lists: the order of Python
`sorted` over the flat string keys. -/
def charListLt : List Char → List Char → Bool
  | [], [] => false
  | [], _ :: _ => true
  | _ :: _, [] => false
  | c :: cs, d :: ds =>
    if charLt c d then true
    else if charLt d c then false
    else charListLt cs ds

/-- Strict order on keys by their flat string rendering. -/
def renderLt (k x : Key) : Bool := charListLt k.render.toList x.render.toList

/-- Insertion step of the sort used to model Python `sorted(allkeys)`
(sorting the flat string keys). -/
def insertKey (k : Key) : List Key → List Key
  | [] => [k]
  | x :: xs => if renderLt k x then k :: x :: xs else x :: insertKey k xs

/-- `sorted(allkeys)` (line 162): insertion sort by the flat string key. -/
def sortKeys : List Key → List Key
  | [] => []
  | x :: xs => insertKey x (sortKeys xs)

/-- Python `k.split("_", 1)[1]` on the character list of a flat key: the
characters after the first underscore (every produced key contains one). -/
def afterFirstUnderscoreL : List Char → List Char
  | [] => []
  | c :: cs => if c = '_' then cs else afterFirstUnderscoreL cs

/-- Python `k.rsplit("_", 1)[1]` on the character list of a flat key: the
characters after the last underscore (every produced key contains one). -/
def afterLastUnderscoreL (l : List Char) : List Char :=
  (l.reverse.takeWhile (fun c => c ≠ '_')).reverse

/-- `k_printname` derivation (lines 164-167): adapter groups use
`k.split("_", 1)[1]`, the other groups use `k.rsplit("_", 1)[1]`. -/
def kPrintname (k : Key) : String :=
  if k.group.isAdapter then String.mk (afterFirstUnderscoreL k.render.toList)
  else String.mk (afterLastUnderscoreL k.render.toList)

/-- One row of the generated diff table: the key it came from, the printed
attribute name, the two values, and whether the row was printed green
(`k in samevalues`) or red. -/
structure Row where
  key : Key
  printname : String
  val1 : Value
  val2 : Value
  matched : Bool
deriving DecidableEq, Repr

/-- The row the table loop adds for key `k` (lines 169-176): values are the
padded dict entries, the colour is membership in `samevalues`. -/
def mkRow (p1 p2 : ProfileRecord) (same : List Key) (k : Key) : Row :=
  { key := k
    printname := kPrintname k
    val1 := getVal p1 k
    val2 := getVal p2 k
    matched := same.contains k }

/-- The `results.diffonly` branch of the loop body (lines 169-176): with
diff-only set, a row is added only when `k not in samevalues`. -/
def rowFor (p1 p2 : ProfileRecord) (same : List Key) (diffonly : Bool)
    (k : Key) : Option Row :=
  if diffonly then
    (if (mkRow p1 p2 same k).matched then none else some (mkRow p1 p2 same k))
  else some (mkRow p1 p2 same k)

/-- The comparison step of `hmc_profile_diff.py` lines 142-176: pad both
records with `'missing'`, compute `samevalues`, then walk the primary key
groups and, inside each, the sorted union keys belonging to that group
(`k.startswith(primarykey)` on the produced flat keys is group equality). -/
def compareRecords (a b : ProfileRecord) (diffonly : Bool) : List Row :=
  primarykeys.flatMap (fun g =>
    ((sortKeys (allkeys a b)).filter (fun k => k.group == g)).filterMap
      (rowFor (pad a b) (pad b a) (samevalues (pad a b) (pad b a)) diffonly))

/-! ## Session lifecycle (`hmc_lpar_attribs.py`, class `HMC`) -/

/-- The mutable state of an `HMC` object: `hmc_name`, `token`, `ssl_verify`
and `connected` (initialised `'', '', cfg value, False` in `__init__`). -/
structure SessionState where
  hmc_name : String
  token : String
  ssl_verify : Bool
  connected : Bool
deriving DecidableEq, Repr

/-- `HMC.check_connected` (lines 67-73): when not connected it prints and
`sys.exit(42)`; the exit code is returned as `some 42`. -/
def check_connected (st : SessionState) : Option Nat :=
  if st.connected = false then some 42 else none

/-- Result of a logon attempt: the object state afterwards and the
`sys.exit` code when the call terminated the program. -/
structure LogonResult where
  state : SessionState
  exitCode : Option Nat
deriving DecidableEq, Repr

/-- `HMC.logon` (lines 75-113), with the HTTP transport abstracted by the
status code and token the logon request would return.  A second logon exits
42; then `hmc_name` is assigned; a non-200 status exits with that status
before any token is stored; on 200 the token is stored and `connected`
becomes true.  (`escape(user)`/`escape(passwd)` only shape the request
payload, which is not modelled.) -/
def logon (st : SessionState) (hmc _user _passwd : String) (status : Nat)
    (tok : String) : LogonResult :=
  if st.connected then ⟨st, some 42⟩
  else
    let st1 := { st with hmc_name := hmc }
    if status ≠ 200 then ⟨st1, some status⟩
    else ⟨{ st1 with token := tok, connected := true }, none⟩

/-- Result of a logoff attempt: state afterwards, `sys.exit` code if the
call terminated the program, and whether an outbound DELETE was sent. -/
structure LogoffResult where
  state : SessionState
  exitCode : Option Nat
  requestSent : Bool
deriving DecidableEq, Repr

/-- `ok_return_codes = [200, 202, 204]` (line 129). -/
def ok_return_codes : List Nat := [200, 202, 204]

/-- `HMC.logoff` (lines 115-136): `check_connected('logoff')` first (exit 42
when not connected, before any request); otherwise the DELETE is sent and a
status outside `ok_return_codes` exits with that status, else `connected`
becomes false. -/
def logoff (st : SessionState) (status : Nat) : LogoffResult :=
  match check_connected st with
  | some c => ⟨st, some c, false⟩
  | none =>
    if status ∈ ok_return_codes then ⟨{ st with connected := false }, none, true⟩
    else ⟨st, some status, true⟩

/-- `HMC.cleanup` (lines 58-65, the `atexit` handler): sends the DELETE only
when still connected, and never fails or exits; it does not update
`connected`.  Returns whether a request was sent. -/
def cleanup (st : SessionState) : SessionState × Bool :=
  if st.connected then (st, true) else (st, false)

/-! ## Profile fetch (`HMC.get_lpar_config`, lines 138-266) -/

/-- The per-group comparison enable flags read from `config.yaml`
(`cfg['compare_general']` and friends). -/
structure Config where
  compare_general : Bool
  compare_processors : Bool
  compare_memory : Bool
  compare_networking : Bool
  compare_virtual_fc : Bool
  compare_virtual_scsi : Bool
deriving DecidableEq, Repr

/-- The flag guarding extraction of one group. -/
def Config.flag (cfg : Config) : Group → Bool
  | .general => cfg.compare_general
  | .processor => cfg.compare_processors
  | .memory => cfg.compare_memory
  | .network => cfg.compare_networking
  | .vfc => cfg.compare_virtual_fc
  | .vscsi => cfg.compare_virtual_scsi

/-- One adapter element of the default-profile document: the texts of its
direct children, keyed by tag.  A tag absent from the list is a missing
child element (`adapter.find` returns `None`); `(tag, none)` is a present
element with no text. -/
structure AdapterElem where
  fields : List (String × Option String)
deriving DecidableEq, Repr

/-- The partition-search response document, reduced to what the code reads:
the texts found by `xml_response.find('.//ns1:tag')` (absence from the list
is a find miss), and whether an `AssociatedPartitionProfile` element (with
its `href`) is present. -/
structure SearchDoc where
  scalars : List (String × Option String)
  hasAssociatedProfile : Bool
deriving DecidableEq, Repr

/-- The default-profile document, reduced to what the code reads: scalar
element texts plus the three adapter element lists in document order. -/
structure ProfileDoc where
  scalars : List (String × Option String)
  netAdapters : List AdapterElem
  fcAdapters : List AdapterElem
  scsiAdapters : List AdapterElem
deriving DecidableEq, Repr

/-- What the remote host answers during one `get_lpar_config` call: the
search request's status and document, and the default-profile request's
status and document. -/
structure HostResponses where
  searchStatus : Nat
  searchDoc : SearchDoc
  profileStatus : Nat
  profileDoc : ProfileDoc
deriving DecidableEq, Repr

/-- The value `get_lpar_config` returns: the populated dictionary, or one of
the numeric return codes 1/2/3/4. -/
inductive FetchOut where
  | record (r : ProfileRecord)
  | ret (n : Nat)
deriving DecidableEq, Repr

def attribs_general_general : List String :=
  ["PartitionType", "CurrentProcessorCompatibilityMode"]

def attribs_default_general : List String := ["ProfileName"]

def attribs_default_processor : List String :=
  ["SharingMode", "UncappedWeight", "MinimumProcessingUnits",
   "DesiredProcessingUnits", "MaximumProcessingUnits",
   "MinimumVirtualProcessors", "DesiredVirtualProcessors",
   "MaximumVirtualProcessors"]

def attribs_default_memory : List String :=
  ["ActiveMemoryExpansionEnabled", "DesiredMemory", "ExpansionFactor",
   "MaximumMemory", "MinimumMemory"]

def attribs_default_veth : List String :=
  ["VirtualSlotNumber", "PortVLANID", "VirtualSwitchName"]

def attribs_default_vfc : List String := ["VirtualSlotNumber", "AdapterType"]

def attribs_default_vscsi : List String := ["VirtualSlotNumber", "AdapterType"]

/-- A scalar extraction loop (e.g. lines 181-186): for each attribute, store
the found element's text, or `None` when `find` misses. -/
def extractScalars (g : Group) (ats : List String)
    (scal : List (String × Option String)) : ProfileRecord :=
  ats.map (fun t => (⟨g, t⟩, ((List.lookup t scal).getD none : Value)))

/-- The inner attribute loop of an adapter extraction (e.g. line 235-236):
`adapter.find(attrib).text` raises `AttributeError` when the child element
is missing; otherwise the key `Group_AdapterName_index_attrib` is stored. -/
def adapterAttribs (g : Group) (aname : String) (idx : Nat)
    (ats : List String) (a : AdapterElem) : Except String ProfileRecord :=
  match ats with
  | [] => .ok []
  | t :: ts =>
    match List.lookup t a.fields with
    | none => .error "AttributeError"
    | some v =>
      match adapterAttribs g aname idx ts a with
      | .error e => .error e
      | .ok rest =>
        .ok ((⟨g, aname ++ "_" ++ toString idx ++ "_" ++ t⟩, (v : Value)) :: rest)

/-- The outer adapter loop (e.g. lines 233-237): adapters in document order,
numbered from `index = 0`. -/
def adaptersLoop (g : Group) (aname : String) (ats : List String)
    (idx : Nat) : List AdapterElem → Except String ProfileRecord
  | [] => .ok []
  | a :: rest =>
    match adapterAttribs g aname idx ats a with
    | .error e => .error e
    | .ok r1 =>
      match adaptersLoop g aname ats (idx + 1) rest with
      | .error e => .error e
      | .ok r2 => .ok (r1 ++ r2)

/-- `HMC.get_lpar_config` (lines 138-266), with the transport abstracted by
`HostResponses`.  Search status 200 parses the search document; a missing
`AssociatedPartitionProfile` returns 3; a non-200 profile fetch returns 4;
search status 204 returns 1 and any other search status returns 2.  The
dictionary is built in the source's assignment order (all assigned keys are
distinct, so appending the sections is the dict contents).  A raised Python
`AttributeError` is the `Except.error` case. -/
def get_lpar_config (cfg : Config) (resp : HostResponses) :
    Except String FetchOut :=
  if resp.searchStatus = 200 then
    if resp.searchDoc.hasAssociatedProfile then
      if resp.profileStatus = 200 then
        match (if cfg.compare_networking then
                 adaptersLoop .network "VirtualEthAdapter" attribs_default_veth
                   0 resp.profileDoc.netAdapters
               else .ok []) with
        | .error e => .error e
        | .ok net =>
          match (if cfg.compare_virtual_fc then
                   adaptersLoop .vfc "VirtualFcAdapter" attribs_default_vfc
                     0 resp.profileDoc.fcAdapters
                 else .ok []) with
          | .error e => .error e
          | .ok vfc =>
            match (if cfg.compare_virtual_scsi then
                     adaptersLoop .vscsi "VirtualScsiAdapter"
                       attribs_default_vscsi 0 resp.profileDoc.scsiAdapters
                   else .ok []) with
            | .error e => .error e
            | .ok vscsi =>
              .ok (.record
                ((if cfg.compare_general then
                    extractScalars .general attribs_general_general
                      resp.searchDoc.scalars
                  else [])
                  ++ (if cfg.compare_general then
                        extractScalars .general attribs_default_general
                          resp.profileDoc.scalars
                      else [])
                  ++ (if cfg.compare_processors then
                        extractScalars .processor attribs_default_processor
                          resp.profileDoc.scalars
                      else [])
                  ++ (if cfg.compare_memory then
                        extractScalars .memory attribs_default_memory
                          resp.profileDoc.scalars
                      else [])
                  ++ net ++ vfc ++ vscsi))
      else .ok (.ret 4)
    else .ok (.ret 3)
  else if resp.searchStatus = 204 then .ok (.ret 1)
  else .ok (.ret 2)

/-- The caller's return-code handling (`hmc_profile_diff.py` lines 118-140):
the message its `elif` chain prints for a numeric `get_lpar_config` result,
`none` when no branch matches the code. -/
def lparErrorMessage (n : Nat) : Option String :=
  if n = 1 then some "LPAR not found"
  else if n = 2 then some "Error encountered obtaining data"
  else if n = 3 then some "No default profile found"
  else none

/-! ## Per-host failover loop (`hmc_profile_diff.py` lines 97-116) -/

/-- The value of a `lparN_data` variable during the failover loop: the
initial `None`, a numeric return code, or the fetched dictionary. -/
inductive LparData where
  | undef
  | ret (n : Nat)
  | record (r : ProfileRecord)
deriving DecidableEq, Repr

/-- Python `isinstance(lpar_data, dict)`. -/
def LparData.isDict : LparData → Bool
  | .record _ => true
  | _ => false

/-- A session-level side effect of the failover loop, in program order. -/
inductive HmcEvent where
  | sessionOpen (host : String)
  | fetchReq (host lparName : String)
  | sessionClose (host : String)
deriving DecidableEq, Repr

/-- One iteration of the failover loop body (lines 102-116): construct the
`HMC` object (which logs on), fetch whichever of the two LPARs is not yet a
dict, then `hmc.logoff()`.  `F` gives each host's `get_lpar_config` outcome
per LPAR name.  Returns the new pair of data values and the emitted events. -/
def hostStep (F : String → String → LparData) (n1 n2 h : String)
    (d1 d2 : LparData) : LparData × LparData × List HmcEvent :=
  (if d1.isDict then d1 else F h n1,
   if d2.isDict then d2 else F h n2,
   [HmcEvent.sessionOpen h]
     ++ (if d1.isDict then [] else [HmcEvent.fetchReq h n1])
     ++ (if d2.isDict then [] else [HmcEvent.fetchReq h n2])
     ++ [HmcEvent.sessionClose h])

/-- The failover loop (lines 97-116): hosts in order, breaking as soon as
both data values are dicts. -/
def failover (F : String → String → LparData) (n1 n2 : String) :
    List String → LparData → LparData → LparData × LparData × List HmcEvent
  | [], d1, d2 => (d1, d2, [])
  | h :: hs, d1, d2 =>
    if d1.isDict && d2.isDict then (d1, d2, [])
    else
      let s := hostStep F n1 n2 h d1 d2
      let rest := failover F n1 n2 hs s.1 s.2.1
      (rest.1, rest.2.1, s.2.2 ++ rest.2.2)

/-! ## Lemmas about the diff engine -/

theorem lookup_isSome_iff_mem (k : Key) (r : ProfileRecord) :
    (List.lookup k r).isSome = true ↔ k ∈ keysOf r := by
  induction r with
  | nil => simp [keysOf, List.lookup]
  | cons p tl ih =>
    by_cases h : k = p.1
    · simp [keysOf, List.lookup, h]
    · have hb : (k == p.1) = false := by
        simpa using h
      simp only [List.lookup, hb, keysOf, List.map_cons, List.mem_cons]
      rw [ih]
      simp [keysOf, h]

theorem lookup_append_left (k : Key) (l1 l2 : ProfileRecord)
    (h : (List.lookup k l1).isSome = true) :
    List.lookup k (l1 ++ l2) = List.lookup k l1 := by
  induction l1 with
  | nil => simp [List.lookup] at h
  | cons p tl ih =>
    by_cases hk : k = p.1
    · simp [List.lookup, hk]
    · have hb : (k == p.1) = false := by simpa using hk
      simp only [List.lookup, hb, List.cons_append] at h ⊢
      exact ih h

theorem lookup_append_right (k : Key) (l1 l2 : ProfileRecord)
    (h : List.lookup k l1 = none) :
    List.lookup k (l1 ++ l2) = List.lookup k l2 := by
  induction l1 with
  | nil => simp
  | cons p tl ih =>
    by_cases hk : k = p.1
    · simp [List.lookup, hk] at h
    · have hb : (k == p.1) = false := by simpa using hk
      simp only [List.lookup, hb, List.cons_append] at h ⊢
      exact ih h

theorem lookup_sentinel (k : Key) (ks : List Key) (h : k ∈ ks) :
    List.lookup k (ks.map (fun x => (x, (some "missing" : Value))))
      = some (some "missing") := by
  induction ks with
  | nil => simp at h
  | cons x tl ih =>
    by_cases hk : k = x
    · simp [List.lookup, hk]
    · have hb : (k == x) = false := by simpa using hk
      have hmem : k ∈ tl := by
        rcases List.mem_cons.mp h with h1 | h1
        · exact absurd h1 hk
        · exact h1
      simp only [List.map_cons, List.lookup, hb]
      exact ih hmem

theorem mem_allkeys (k : Key) (a b : ProfileRecord) :
    k ∈ allkeys a b ↔ k ∈ keysOf a ∨ k ∈ keysOf b := by
  simp [allkeys]

theorem lookup_pad_left (k : Key) (a b : ProfileRecord)
    (h : (List.lookup k a).isSome = true) :
    List.lookup k (pad a b) = List.lookup k a :=
  lookup_append_left k a _ h

theorem lookup_pad_missing (k : Key) (a b : ProfileRecord)
    (hnone : List.lookup k a = none) (hb : k ∈ keysOf b) :
    List.lookup k (pad a b) = some (some "missing") := by
  unfold pad
  rw [lookup_append_right k a _ hnone]
  apply lookup_sentinel
  rw [List.mem_filter]
  refine ⟨?_, ?_⟩
  · exact (mem_allkeys k a b).mpr (Or.inr hb)
  · simp [hasKey, hnone]

theorem lookup_pad_isSome (k : Key) (a b : ProfileRecord)
    (h : k ∈ allkeys a b) : (List.lookup k (pad a b)).isSome = true := by
  cases hl : List.lookup k a with
  | some v =>
    rw [lookup_pad_left k a b (by simp [hl])]
    simp [hl]
  | none =>
    have hb : k ∈ keysOf b := by
      rcases (mem_allkeys k a b).mp h with ha | hb
      · exact absurd ((lookup_isSome_iff_mem k a).mpr ha) (by simp [hl])
      · exact hb
    rw [lookup_pad_missing k a b hl hb]
    rfl

theorem lookup_eq_some_getVal (k : Key) (r : ProfileRecord)
    (h : (List.lookup k r).isSome = true) :
    List.lookup k r = some (getVal r k) := by
  cases hl : List.lookup k r with
  | some v => simp [getVal, hl]
  | none => simp [hl] at h

/-! Sorting and group-bucket permutation lemmas. -/

theorem insertKey_perm (k : Key) (l : List Key) :
    (insertKey k l).Perm (k :: l) := by
  induction l with
  | nil => simp [insertKey]
  | cons x xs ih =>
    unfold insertKey
    by_cases h : renderLt k x
    · simp [h]
    · simp only [h, if_false]
      exact (List.Perm.cons x ih).trans (List.Perm.swap k x xs)

theorem sortKeys_perm (l : List Key) : (sortKeys l).Perm l := by
  induction l with
  | nil => simp [sortKeys]
  | cons x xs ih =>
    unfold sortKeys
    exact (insertKey_perm x (sortKeys xs)).trans (List.Perm.cons x ih)

theorem flatMap_congr_mem {α β : Type} (l : List α) (f g : α → List β)
    (h : ∀ x ∈ l, f x = g x) : l.flatMap f = l.flatMap g := by
  induction l with
  | nil => rfl
  | cons x xs ih =>
    simp only [List.flatMap_cons]
    rw [h x (List.mem_cons_self x xs), ih (fun y hy => h y (List.mem_cons_of_mem x hy))]

theorem flatMap_filter_groups_perm_aux (gs : List Group) :
    ∀ l : List Key, gs.Nodup → (∀ k ∈ l, k.group ∈ gs) →
      (gs.flatMap (fun g => l.filter (fun k => k.group == g))).Perm l := by
  induction gs with
  | nil =>
    intro l _ hall
    cases l with
    | nil => simp
    | cons k tl => exact absurd (hall k (List.mem_cons_self k tl)) (by simp)
  | cons g gs ih =>
    intro l hnd hall
    have hgnotin : g ∉ gs := (List.nodup_cons.mp hnd).1
    have hndtl : gs.Nodup := (List.nodup_cons.mp hnd).2
    simp only [List.flatMap_cons]
    have hcongr : ∀ g2 ∈ gs,
        l.filter (fun k => k.group == g2)
          = (l.filter (fun k => !(k.group == g))).filter (fun k => k.group == g2) := by
      intro g2 hg2
      rw [List.filter_filter]
      apply List.filter_congr
      intro k _
      have hne2 : g2 ≠ g := fun he => hgnotin (he ▸ hg2)
      by_cases hk : k.group = g2
      · simp [hk, hne2]
      · simp [hk]
    rw [flatMap_congr_mem gs _ _ hcongr]
    have hall2 : ∀ k ∈ l.filter (fun k => !(k.group == g)), k.group ∈ gs := by
      intro k hk
      rcases List.mem_filter.mp hk with ⟨hkl, hkp⟩
      have hne : k.group ≠ g := by simpa using hkp
      rcases List.mem_cons.mp (hall k hkl) with h1 | h1
      · exact absurd h1 hne
      · exact h1
    have hperm2 := ih (l.filter (fun k => !(k.group == g))) hndtl hall2
    exact (List.Perm.append_left (l.filter (fun k => k.group == g)) hperm2).trans
      (List.filter_append_perm _ l)

theorem flatMap_filter_groups_perm (l : List Key) :
    (primarykeys.flatMap (fun g => l.filter (fun k => k.group == g))).Perm l := by
  apply flatMap_filter_groups_perm_aux
  · decide
  · intro k _
    cases k.group <;> simp [primarykeys]

/-! Characterisation of rows. -/

theorem rowFor_eq_some (p1 p2 : ProfileRecord) (same : List Key) (d : Bool)
    (k : Key) (row : Row) (h : rowFor p1 p2 same d k = some row) :
    row = mkRow p1 p2 same k := by
  unfold rowFor at h
  cases d with
  | true =>
    by_cases hm : (mkRow p1 p2 same k).matched
    · simp [hm] at h
    · simp only [Bool.not_eq_true] at hm
      simp [hm] at h
      exact h.symm
  | false =>
    simp at h
    exact h.symm

theorem mem_compareRecords (a b : ProfileRecord) (d : Bool) (row : Row)
    (h : row ∈ compareRecords a b d) :
    row.key ∈ allkeys a b
      ∧ row = mkRow (pad a b) (pad b a)
          (samevalues (pad a b) (pad b a)) row.key := by
  unfold compareRecords at h
  rcases List.mem_flatMap.mp h with ⟨g, _, hrow⟩
  rcases List.mem_filterMap.mp hrow with ⟨k, hk, hsome⟩
  have hrk := rowFor_eq_some _ _ _ _ _ _ hsome
  have hkey : row.key = k := by rw [hrk]; rfl
  have hkmem : k ∈ allkeys a b := by
    have h1 : k ∈ sortKeys (allkeys a b) := (List.mem_filter.mp hk).1
    exact (sortKeys_perm (allkeys a b)).mem_iff.mp h1
  rw [hkey]
  exact ⟨hkmem, hrk⟩

theorem filterMap_some_map {α β : Type} (f : α → β) (l : List α) :
    l.filterMap (fun x => some (f x)) = l.map f := by
  induction l with
  | nil => rfl
  | cons x xs ih => simp [List.filterMap_cons, ih]

theorem compare_false_keys (a b : ProfileRecord) :
    (compareRecords a b false).map Row.key
      = primarykeys.flatMap
          (fun g => (sortKeys (allkeys a b)).filter (fun k => k.group == g)) := by
  unfold compareRecords
  rw [List.map_flatMap]
  apply flatMap_congr_mem
  intro g _
  unfold rowFor
  simp only [Bool.false_eq_true, if_false]
  rw [filterMap_some_map, List.map_map]
  have : (Row.key ∘ mkRow (pad a b) (pad b a) (samevalues (pad a b) (pad b a)))
      = id := rfl
  rw [this, List.map_id]

theorem compare_false_keys_perm (a b : ProfileRecord) :
    ((compareRecords a b false).map Row.key).Perm (allkeys a b) := by
  rw [compare_false_keys]
  exact (flatMap_filter_groups_perm _).trans (sortKeys_perm _)

theorem matched_iff_values (a b : ProfileRecord) (k : Key)
    (h : k ∈ allkeys a b) :
    ((mkRow (pad a b) (pad b a) (samevalues (pad a b) (pad b a)) k).matched
        = true)
      ↔ getVal (pad a b) k = getVal (pad b a) k := by
  have h1 : (List.lookup k (pad a b)).isSome = true := lookup_pad_isSome k a b h
  have h2 : (List.lookup k (pad b a)).isSome = true := by
    apply lookup_pad_isSome
    rcases (mem_allkeys k a b).mp h with hx | hx
    · exact (mem_allkeys k b a).mpr (Or.inr hx)
    · exact (mem_allkeys k b a).mpr (Or.inl hx)
  have hk1 : k ∈ keysOf (pad a b) := (lookup_isSome_iff_mem k _).mp h1
  show (List.contains _ k = true) ↔ _
  rw [List.elem_iff]
  unfold samevalues
  rw [List.mem_filter]
  constructor
  · intro ⟨_, hv⟩
    have hv2 : List.lookup k (pad a b) = List.lookup k (pad b a) := by
      exact beq_iff_eq.mp hv
    rw [lookup_eq_some_getVal k _ h1, lookup_eq_some_getVal k _ h2] at hv2
    exact Option.some.inj hv2
  · intro hv
    refine ⟨hk1, ?_⟩
    rw [beq_iff_eq, lookup_eq_some_getVal k _ h1, lookup_eq_some_getVal k _ h2, hv]

/-! Display-name lemmas: behaviour of `split("_", 1)[1]` and
`rsplit("_", 1)[1]` on the rendered keys. -/

theorem afterFirst_append (l1 l2 : List Char) (h : '_' ∉ l1) :
    afterFirstUnderscoreL (l1 ++ '_' :: l2) = l2 := by
  induction l1 with
  | nil => simp [afterFirstUnderscoreL]
  | cons c cs ih =>
    have hc : c ≠ '_' := fun he => h (he ▸ List.mem_cons_self c cs)
    have hcs : '_' ∉ cs := fun hm => h (List.mem_cons_of_mem c hm)
    simp only [List.cons_append, afterFirstUnderscoreL]
    rw [if_neg hc]
    exact ih hcs

theorem takeWhile_append_stop (p : Char → Bool) (c : Char) (hp : p c = false) :
    ∀ x y : List Char, (x ++ c :: y).takeWhile p = x.takeWhile p := by
  intro x y
  induction x with
  | nil => simp [List.takeWhile, hp]
  | cons d ds ih =>
    simp only [List.cons_append, List.takeWhile]
    cases hd : p d with
    | true => simp [hd, ih]
    | false => simp [hd]

theorem afterLast_append (l1 l2 : List Char) (_h : '_' ∉ l1) :
    afterLastUnderscoreL (l1 ++ '_' :: l2) = afterLastUnderscoreL l2 := by
  unfold afterLastUnderscoreL
  have hrev : (l1 ++ '_' :: l2).reverse = l2.reverse ++ '_' :: l1.reverse := by
    rw [List.reverse_append, List.reverse_cons, List.append_assoc]
    simp
  rw [hrev, takeWhile_append_stop _ '_' (by simp) l2.reverse l1.reverse]

theorem groupName_no_underscore (g : Group) : '_' ∉ (Group.name g).toList := by
  cases g <;> decide

theorem render_toList (k : Key) :
    (Key.render k).toList = (Group.name k.group).toList ++ '_' :: k.rest.toList := by
  show (Key.render k).data = (Group.name k.group).data ++ '_' :: k.rest.data
  unfold Key.render
  rw [String.data_append, String.data_append, List.append_assoc]
  rfl

theorem kPrintname_adapter (k : Key) (h : k.group.isAdapter = true) :
    kPrintname k = k.rest := by
  unfold kPrintname
  rw [if_pos h, render_toList,
    afterFirst_append _ _ (groupName_no_underscore k.group)]
  rfl

theorem kPrintname_nonadapter (k : Key) (h : k.group.isAdapter = false) :
    kPrintname k = String.mk (afterLastUnderscoreL k.rest.toList) := by
  unfold kPrintname
  rw [if_neg (by simp [h]), render_toList,
    afterLast_append _ _ (groupName_no_underscore k.group)]

/-! ## Claim C1 -/

/-- The spec scenario records: `A` has `PartitionType` and `SharingMode`,
`B` only `PartitionType`. -/
def kPT : Key := ⟨.general, "PartitionType"⟩

def kSM : Key := ⟨.processor, "SharingMode"⟩

def wA : ProfileRecord := [(kPT, some "AIX"), (kSM, some "uncapped")]

def wB : ProfileRecord := [(kPT, some "AIX")]

/-- The `SharingMode` row of `compareRecords wA wB false`. -/
def rowSM : Row := ⟨kSM, "SharingMode", some "uncapped", some "missing", false⟩

/-- A record whose only key carries the literal value `"missing"`. -/
def c1A : ProfileRecord := [(kPT, some "missing")]

def c1B : ProfileRecord := []

/-- C1 counterexample: for the pair `(c1A, c1B)` the key `kPT` is present
only in `c1A`, yet because its stored value is the literal string
`"missing"` it compares equal to the inserted sentinel and the single row
is marked matched — the claim says a key present in exactly one record is
always marked mismatched. -/
theorem c1_counterexample :
    compareRecords c1A c1B false
        = [{ key := kPT, printname := "PartitionType",
             val1 := some "missing", val2 := some "missing", matched := true }]
      ∧ hasKey c1B kPT = false := by
  decide

/-- C1 amended: the rows of `compareRecords a b false` carry exactly the
union of the two key sets, with no key dropped or duplicated; a row is
marked matched iff its two (sentinel-padded) values are equal by exact
string comparison; and for a key present in exactly one record the missing
side is the literal sentinel `"missing"` and the present side keeps its
stored value — so such a row is mismatched unless the stored value is
itself the string `"missing"`. -/
theorem c1_compare_amended (a b : ProfileRecord) :
    ((compareRecords a b false).map Row.key).Perm (allkeys a b)
      ∧ ((compareRecords a b false).map Row.key).Nodup
      ∧ ∀ row ∈ compareRecords a b false,
          (row.matched = true ↔ row.val1 = row.val2)
          ∧ (row.key ∈ keysOf a → ¬ row.key ∈ keysOf b →
               row.val1 = getVal a row.key ∧ row.val2 = some "missing")
          ∧ (row.key ∈ keysOf b → ¬ row.key ∈ keysOf a →
               row.val2 = getVal b row.key ∧ row.val1 = some "missing") := by
  refine ⟨compare_false_keys_perm a b, ?_, ?_⟩
  · exact (compare_false_keys_perm a b).nodup_iff.mpr (List.nodup_dedup _)
  · intro row hrow
    obtain ⟨hk, hrw⟩ := mem_compareRecords a b false row hrow
    refine ⟨?_, ?_, ?_⟩
    · rw [hrw]
      exact matched_iff_values a b row.key hk
    · intro ha hb
      have hsa : (List.lookup row.key a).isSome = true :=
        (lookup_isSome_iff_mem row.key a).mpr ha
      have hnb : List.lookup row.key b = none :=
        Option.not_isSome_iff_eq_none.mp
          (fun hs => hb ((lookup_isSome_iff_mem row.key b).mp hs))
      constructor
      · have : row.val1 = getVal (pad a b) row.key := by rw [hrw]; rfl
        rw [this]
        unfold getVal
        rw [lookup_pad_left row.key a b hsa]
      · have : row.val2 = getVal (pad b a) row.key := by rw [hrw]; rfl
        rw [this]
        unfold getVal
        rw [lookup_pad_missing row.key b a hnb ha]
        rfl
    · intro hb ha
      have hsb : (List.lookup row.key b).isSome = true :=
        (lookup_isSome_iff_mem row.key b).mpr hb
      have hna : List.lookup row.key a = none :=
        Option.not_isSome_iff_eq_none.mp
          (fun hs => ha ((lookup_isSome_iff_mem row.key a).mp hs))
      constructor
      · have : row.val2 = getVal (pad b a) row.key := by rw [hrw]; rfl
        rw [this]
        unfold getVal
        rw [lookup_pad_left row.key b a hsb]
      · have : row.val1 = getVal (pad a b) row.key := by rw [hrw]; rfl
        rw [this]
        unfold getVal
        rw [lookup_pad_missing row.key a b hna hb]
        rfl

/-- C1 amended, applied to the spec's own scenario pair `(wA, wB)` at the
`SharingMode` row. -/
theorem c1_amended_witness :
    (rowSM.matched = true ↔ rowSM.val1 = rowSM.val2)
      ∧ rowSM.val1 = getVal wA rowSM.key ∧ rowSM.val2 = some "missing" := by
  have h := (c1_compare_amended wA wB).2.2 rowSM (by decide)
  exact ⟨h.1, h.2.1 (by decide) (by decide)⟩

/-! ## Claim C2 -/

theorem filterMap_rowFor_true (p1 p2 : ProfileRecord) (same : List Key)
    (ks : List Key) :
    ks.filterMap (rowFor p1 p2 same true)
      = (ks.filterMap (rowFor p1 p2 same false)).filter
          (fun r => !r.matched) := by
  induction ks with
  | nil => rfl
  | cons k tl ih =>
    rw [List.filterMap_cons, List.filterMap_cons]
    by_cases hm : (mkRow p1 p2 same k).matched
    · simp only [rowFor, if_pos rfl, hm, if_true, Bool.false_eq_true, if_false]
      rw [List.filter_cons]
      simp [hm, ih]
    · simp only [Bool.not_eq_true] at hm
      simp only [rowFor, if_pos rfl, hm, Bool.false_eq_true, if_false]
      rw [List.filter_cons]
      simp [hm, ih]

/-- C2: the diff-only output is exactly the mismatched subsequence of the
full output — the same rows with the same field values, and it contains no
matched row. -/
theorem c2_diffonly (a b : ProfileRecord) :
    compareRecords a b true
        = (compareRecords a b false).filter (fun r => !r.matched)
      ∧ ∀ r ∈ compareRecords a b true, r.matched = false := by
  have heq : compareRecords a b true
      = (compareRecords a b false).filter (fun r => !r.matched) := by
    unfold compareRecords
    rw [List.filter_flatMap]
    apply flatMap_congr_mem
    intro g _
    exact filterMap_rowFor_true _ _ _ _
  refine ⟨heq, ?_⟩
  intro r hr
  rw [heq] at hr
  have := (List.mem_filter.mp hr).2
  simpa using this

/-- C2 applied to the spec scenario pair: the diff-only table for
`(wA, wB)` is the mismatched filter of the full table, and its (single)
row is unmatched. -/
theorem c2_witness :
    compareRecords wA wB true
        = (compareRecords wA wB false).filter (fun r => !r.matched)
      ∧ rowSM.matched = false := by
  refine ⟨(c2_diffonly wA wB).1, ?_⟩
  exact (c2_diffonly wA wB).2 rowSM (by decide)

/-! ## Claim C3 -/

/-- A record holding one network-adapter key, as `get_lpar_config` builds
them: `Network_VirtualEthAdapter_0_VirtualSlotNumber`. -/
def c3A : ProfileRecord :=
  [(⟨.network, "VirtualEthAdapter_0_VirtualSlotNumber"⟩, some "2")]

/-- C3 counterexample: the displayed name of the network-adapter row keeps
the adapter name and index (`split("_", 1)[1]` strips only the `Network`
group); the claim says the bare field name `VirtualSlotNumber` is shown. -/
theorem c3_counterexample :
    (compareRecords c3A c3A false).map Row.printname
        = ["VirtualEthAdapter_0_VirtualSlotNumber"]
      ∧ "VirtualEthAdapter_0_VirtualSlotNumber" ≠ "VirtualSlotNumber" := by
  decide

/-- C3 amended: for adapter groups only the group name and its underscore
are stripped from the full key, so the displayed name is the whole
remainder (adapter name, index and field name); for non-adapter groups the
display name is the suffix of the full key after its last underscore (the
bare field name, since non-adapter field names contain no underscore). -/
theorem c3_display_amended (a b : ProfileRecord) (d : Bool) :
    ∀ row ∈ compareRecords a b d,
      (row.key.group.isAdapter = true → row.printname = row.key.rest)
      ∧ (row.key.group.isAdapter = false →
           row.printname = String.mk (afterLastUnderscoreL row.key.rest.toList)) := by
  intro row hrow
  obtain ⟨_, hrw⟩ := mem_compareRecords a b d row hrow
  have hpn : row.printname = kPrintname row.key := by rw [hrw]; rfl
  constructor
  · intro had
    rw [hpn, kPrintname_adapter row.key had]
  · intro had
    rw [hpn, kPrintname_nonadapter row.key had]

/-- C3 amended, applied to the concrete network-adapter record `c3A`. -/
theorem c3_amended_witness :
    ({ key := ⟨.network, "VirtualEthAdapter_0_VirtualSlotNumber"⟩,
       printname := "VirtualEthAdapter_0_VirtualSlotNumber",
       val1 := some "2", val2 := some "2", matched := true } : Row).printname
      = "VirtualEthAdapter_0_VirtualSlotNumber" := by
  have h := c3_display_amended c3A c3A false
    { key := ⟨.network, "VirtualEthAdapter_0_VirtualSlotNumber"⟩,
      printname := "VirtualEthAdapter_0_VirtualSlotNumber",
      val1 := some "2", val2 := some "2", matched := true } (by decide)
  exact h.1 (by decide)

/-! ## Claim C10 -/

/-- C10: the padding step rewrites the caller's records in place — after
it, the record holds every key of the union of both key sets, keeps its own
original values, stores the literal `"missing"` for each key it originally
lacked, and (whenever the other record had an extra key) is no longer equal
to the original record. -/
theorem c10_pad_mutation (a b : ProfileRecord) :
    (∀ k, (List.lookup k (pad a b)).isSome = true
        ↔ (k ∈ keysOf a ∨ k ∈ keysOf b))
      ∧ (∀ k, k ∈ keysOf a → List.lookup k (pad a b) = List.lookup k a)
      ∧ (∀ k, ¬ k ∈ keysOf a → k ∈ keysOf b →
           List.lookup k (pad a b) = some (some "missing"))
      ∧ ((∃ k, k ∈ keysOf b ∧ ¬ k ∈ keysOf a) → pad a b ≠ a) := by
  have hmiss : ∀ k, ¬ k ∈ keysOf a → k ∈ keysOf b →
      List.lookup k (pad a b) = some (some "missing") := by
    intro k hka hkb
    have hna : List.lookup k a = none :=
      Option.not_isSome_iff_eq_none.mp
        (fun hs => hka ((lookup_isSome_iff_mem k a).mp hs))
    exact lookup_pad_missing k a b hna hkb
  refine ⟨?_, ?_, hmiss, ?_⟩
  · intro k
    constructor
    · intro hs
      by_cases hka : k ∈ keysOf a
      · exact Or.inl hka
      · right
        by_contra hkb
        have hna : List.lookup k a = none :=
          Option.not_isSome_iff_eq_none.mp
            (fun h1 => hka ((lookup_isSome_iff_mem k a).mp h1))
        unfold pad at hs
        rw [lookup_append_right k a _ hna] at hs
        have hk2 := (lookup_isSome_iff_mem k _).mp hs
        unfold keysOf at hk2
        rw [List.map_map] at hk2
        rcases List.mem_map.mp hk2 with ⟨x, hxmem, hxeq⟩
        have hxk : x = k := hxeq
        rcases List.mem_filter.mp hxmem with ⟨hxall, _⟩
        rcases (mem_allkeys x a b).mp hxall with h1 | h1
        · exact hka (hxk ▸ h1)
        · exact hkb (hxk ▸ h1)
    · intro h
      apply lookup_pad_isSome
      exact (mem_allkeys k a b).mpr h
  · intro k hka
    exact lookup_pad_left k a b ((lookup_isSome_iff_mem k a).mpr hka)
  · rintro ⟨k, hkb, hka⟩ heq
    have h1 := hmiss k hka hkb
    rw [heq] at h1
    have hna : List.lookup k a = none :=
      Option.not_isSome_iff_eq_none.mp
        (fun hs => hka ((lookup_isSome_iff_mem k a).mp hs))
    rw [hna] at h1
    exact Option.noConfusion h1

/-- C10 applied to the spec scenario pair: after padding, `wB` gained the
`SharingMode` key with the sentinel value and is no longer the original
record. -/
theorem c10_witness :
    List.lookup kSM (pad wB wA) = some (some "missing") ∧ pad wB wA ≠ wB := by
  have h := c10_pad_mutation wB wA
  exact ⟨h.2.2.1 kSM (by decide) (by decide),
    h.2.2.2 ⟨kSM, by decide, by decide⟩⟩

/-! ## Claims C4 and C9: session lifecycle -/

/-- A session whose logoff already succeeded (`connected = False`). -/
def sClosed : SessionState := ⟨"hmc1", "", true, false⟩

/-- C4 counterexample: calling `logoff` on a closed session is not a silent
no-op — `check_connected` terminates the program with exit code 42 (though
indeed no outbound request is sent). -/
theorem c4_counterexample :
    logoff sClosed 200 = ⟨sClosed, some 42, false⟩
      ∧ (logoff sClosed 200).exitCode ≠ none := by
  decide

/-- C4 amended: invoking `logoff` on a session with `connected = false`
sends no outbound request and leaves the state unchanged, but it does not
succeed silently: `check_connected` exits the program with code 42.  The
silent idempotent no-op on a closed session is the `atexit` `cleanup`
handler, which skips the request without failing. -/
theorem c4_logoff_amended (st : SessionState) (status : Nat)
    (h : st.connected = false) :
    logoff st status = ⟨st, some 42, false⟩ ∧ cleanup st = (st, false) := by
  constructor
  · unfold logoff check_connected
    rw [if_pos h]
  · unfold cleanup
    rw [if_neg (by simp [h])]

/-- C4 amended applied to the closed session at logoff status 503. -/
theorem c4_amended_witness :
    logoff sClosed 503 = ⟨sClosed, some 42, false⟩
      ∧ cleanup sClosed = (sClosed, false) :=
  c4_logoff_amended sClosed 503 (by decide)

/-- The freshly initialised session state (`__init__` before `logon`). -/
def sInit : SessionState := ⟨"", "", true, false⟩

/-- C9: a non-200 logon status exits with that status (the fatal auth
failure carries the status code), stores no token, and leaves `connected`
false. -/
theorem c9_logon_failure (st : SessionState) (hmc u p tok : String)
    (status : Nat) (hconn : st.connected = false) (hst : status ≠ 200) :
    (logon st hmc u p status tok).exitCode = some status
      ∧ (logon st hmc u p status tok).state.token = st.token
      ∧ (logon st hmc u p status tok).state.connected = false := by
  unfold logon
  rw [if_neg (by simp [hconn]), if_pos hst]
  exact ⟨rfl, rfl, hconn⟩

/-- C9 applied to a fresh session receiving logon status 401. -/
theorem c9_witness :
    (logon sInit "hmc1" "user" "pass" 401 "tok").exitCode = some 401
      ∧ (logon sInit "hmc1" "user" "pass" 401 "tok").state.token = sInit.token
      ∧ (logon sInit "hmc1" "user" "pass" 401 "tok").state.connected = false :=
  c9_logon_failure sInit "hmc1" "user" "pass" "tok" 401 (by decide) (by decide)

/-! ## Claim C5: non-200 on the default-profile fetch -/

/-- All comparison groups enabled. -/
def cfgAll : Config := ⟨true, true, true, true, true, true⟩

/-- A host where the partition search succeeds with an associated-profile
reference, but the default-profile fetch answers 500. -/
def respC5 : HostResponses := ⟨200, ⟨[], true⟩, 500, ⟨[], [], [], []⟩⟩

/-- C5: on a non-200 default-profile fetch `get_lpar_config` returns 4, a
code the caller's return-code handling (which covers only 1, 2 and 3) never
reports — not the recoverable query-error code 2 the claim describes. -/
theorem c5_unhandled_profile_fetch :
    get_lpar_config cfgAll respC5 = .ok (.ret 4)
      ∧ lparErrorMessage 4 = none
      ∧ lparErrorMessage 2 = some "Error encountered obtaining data" :=
  ⟨rfl, rfl, rfl⟩

/-! ## Claim C6: missing field inside a present adapter element -/

theorem adapterAttribs_error_val (g : Group) (aname : String) (idx : Nat)
    (a : AdapterElem) :
    ∀ (ats : List String) (e : String),
      adapterAttribs g aname idx ats a = .error e → e = "AttributeError" := by
  intro ats
  induction ats with
  | nil => intro e he; simp [adapterAttribs] at he
  | cons t0 ts ih =>
    intro e he
    unfold adapterAttribs at he
    cases hl : List.lookup t0 a.fields with
    | none =>
      rw [hl] at he
      simp at he
      exact he.symm
    | some v =>
      rw [hl] at he
      cases hr : adapterAttribs g aname idx ts a with
      | error e2 =>
        rw [hr] at he
        simp at he
        exact he ▸ ih e2 hr
      | ok rest =>
        rw [hr] at he
        simp at he

theorem adapterAttribs_error_of_missing (g : Group) (aname : String)
    (idx : Nat) (a : AdapterElem) (t : String)
    (hm : List.lookup t a.fields = none) :
    ∀ ats : List String, t ∈ ats →
      adapterAttribs g aname idx ats a = .error "AttributeError" := by
  intro ats
  induction ats with
  | nil => intro ht; simp at ht
  | cons t0 ts ih =>
    intro ht
    unfold adapterAttribs
    cases hl : List.lookup t0 a.fields with
    | none => rfl
    | some v =>
      have htts : t ∈ ts := by
        rcases List.mem_cons.mp ht with h1 | h1
        · rw [h1] at hm; rw [hm] at hl; exact Option.noConfusion hl
        · exact h1
      rw [ih htts]

theorem adaptersLoop_error_of_mem (g : Group) (aname : String)
    (ats : List String) (t : String) (hts : t ∈ ats) :
    ∀ (l : List AdapterElem) (idx : Nat) (a : AdapterElem), a ∈ l →
      List.lookup t a.fields = none →
      adaptersLoop g aname ats idx l = .error "AttributeError" := by
  intro l
  induction l with
  | nil => intro idx a ha; simp at ha
  | cons a0 rest ih =>
    intro idx a ha hm
    unfold adaptersLoop
    cases hA : adapterAttribs g aname idx ats a0 with
    | error e =>
      rw [adapterAttribs_error_val g aname idx a0 ats e hA]
    | ok r1 =>
      rcases List.mem_cons.mp ha with h1 | h1
      · rw [h1] at hm
        rw [adapterAttribs_error_of_missing g aname idx a0 t hm ats hts] at hA
        exact Except.noConfusion hA
      · rw [ih (idx + 1) a h1 hm]

theorem adaptersLoop_error_val (g : Group) (aname : String)
    (ats : List String) :
    ∀ (l : List AdapterElem) (idx : Nat) (e : String),
      adaptersLoop g aname ats idx l = .error e → e = "AttributeError" := by
  intro l
  induction l with
  | nil =>
    intro idx e he
    unfold adaptersLoop at he
    exact Except.noConfusion he
  | cons a0 rest ih =>
    intro idx e he
    unfold adaptersLoop at he
    cases hA : adapterAttribs g aname idx ats a0 with
    | error e0 =>
      rw [hA] at he
      simp at he
      exact he ▸ adapterAttribs_error_val g aname idx a0 ats e0 hA
    | ok r1 =>
      rw [hA] at he
      cases hL : adaptersLoop g aname ats (idx + 1) rest with
      | error e1 =>
        rw [hL] at he
        simp at he
        exact he ▸ ih (idx + 1) e1 hL
      | ok r2 =>
        rw [hL] at he
        exact Except.noConfusion he

theorem guarded_loop_error_val (c : Prop) [Decidable c] (g : Group)
    (aname : String) (ats : List String) (idx : Nat) (l : List AdapterElem)
    (e : String)
    (h : (if c then adaptersLoop g aname ats idx l else Except.ok [])
          = .error e) :
    e = "AttributeError" := by
  by_cases hc : c
  · rw [if_pos hc] at h
    exact adaptersLoop_error_val g aname ats l idx e h
  · rw [if_neg hc] at h
    exact Except.noConfusion h

theorem adapterAttribs_ok_mem (g : Group) (aname : String) (idx : Nat)
    (a : AdapterElem) :
    ∀ (ats : List String) (r : ProfileRecord),
      adapterAttribs g aname idx ats a = .ok r →
      ∀ t ∈ ats, List.lookup t a.fields = some none →
      ((⟨g, aname ++ "_" ++ toString idx ++ "_" ++ t⟩ : Key),
        (none : Value)) ∈ r := by
  intro ats
  induction ats with
  | nil => intro r _ t ht; simp at ht
  | cons t0 ts ih =>
    intro r hr t ht hm
    unfold adapterAttribs at hr
    cases hl : List.lookup t0 a.fields with
    | none => rw [hl] at hr; exact Except.noConfusion hr
    | some v =>
      rw [hl] at hr
      cases hrec : adapterAttribs g aname idx ts a with
      | error e => rw [hrec] at hr; exact Except.noConfusion hr
      | ok rest =>
        rw [hrec] at hr
        cases hr
        rcases List.mem_cons.mp ht with h1 | h1
        · have hv : v = none := by
            rw [h1] at hm
            exact Option.some.inj (hl.symm.trans hm)
          rw [h1, hv]
          exact List.mem_cons_self _ _
        · exact List.mem_cons_of_mem _ (ih rest hrec t h1 hm)

/-- C6 amended: with a search status of 200, an associated profile present
and a profile status of 200, a field element missing inside a present
adapter element of any of the three adapter groups — network,
fibre-channel or SCSI, when that group's extraction is enabled — makes the
whole fetch fail with Python's `AttributeError`
(`adapter.find(attrib).text` on `None`) instead of completing with an
absent value; and a field is surfaced as the absent value exactly when its
element is present with no text: a successful adapter extraction maps the
key of a present-but-empty field element to `none`. -/
theorem c6_missing_adapter_field (cfg : Config) (resp : HostResponses)
    (hs : resp.searchStatus = 200)
    (hp : resp.searchDoc.hasAssociatedProfile = true)
    (hps : resp.profileStatus = 200) :
    (∀ a ∈ resp.profileDoc.netAdapters, ∀ t ∈ attribs_default_veth,
       cfg.compare_networking = true → List.lookup t a.fields = none →
       get_lpar_config cfg resp = .error "AttributeError")
      ∧ (∀ a ∈ resp.profileDoc.fcAdapters, ∀ t ∈ attribs_default_vfc,
           cfg.compare_virtual_fc = true → List.lookup t a.fields = none →
           get_lpar_config cfg resp = .error "AttributeError")
      ∧ (∀ a ∈ resp.profileDoc.scsiAdapters, ∀ t ∈ attribs_default_vscsi,
           cfg.compare_virtual_scsi = true → List.lookup t a.fields = none →
           get_lpar_config cfg resp = .error "AttributeError")
      ∧ (∀ (g : Group) (aname : String) (idx : Nat) (ats : List String)
           (a : AdapterElem) (r : ProfileRecord) (t : String),
           adapterAttribs g aname idx ats a = .ok r → t ∈ ats →
           List.lookup t a.fields = some none →
           ((⟨g, aname ++ "_" ++ toString idx ++ "_" ++ t⟩ : Key),
             (none : Value)) ∈ r) := by
  refine ⟨?_, ?_, ?_, ?_⟩
  · intro a ha t hats hflag hm
    unfold get_lpar_config
    rw [if_pos hs, if_pos (by rw [hp]), if_pos hps]
    have hloop : (if cfg.compare_networking = true then
        adaptersLoop .network "VirtualEthAdapter" attribs_default_veth 0
          resp.profileDoc.netAdapters
      else .ok []) = Except.error "AttributeError" := by
      rw [if_pos hflag]
      exact adaptersLoop_error_of_mem .network "VirtualEthAdapter"
        attribs_default_veth t hats resp.profileDoc.netAdapters 0 a ha hm
    simp only [hloop]
  · intro a ha t hats hflag hm
    unfold get_lpar_config
    rw [if_pos hs, if_pos (by rw [hp]), if_pos hps]
    cases hnet : (if cfg.compare_networking = true then
        adaptersLoop .network "VirtualEthAdapter" attribs_default_veth 0
          resp.profileDoc.netAdapters
      else Except.ok []) with
    | error e =>
      simp only [hnet]
      rw [guarded_loop_error_val _ .network "VirtualEthAdapter"
        attribs_default_veth 0 resp.profileDoc.netAdapters e hnet]
    | ok net =>
      have hloop : (if cfg.compare_virtual_fc = true then
          adaptersLoop .vfc "VirtualFcAdapter" attribs_default_vfc 0
            resp.profileDoc.fcAdapters
        else .ok []) = Except.error "AttributeError" := by
        rw [if_pos hflag]
        exact adaptersLoop_error_of_mem .vfc "VirtualFcAdapter"
          attribs_default_vfc t hats resp.profileDoc.fcAdapters 0 a ha hm
      simp only [hnet, hloop]
  · intro a ha t hats hflag hm
    unfold get_lpar_config
    rw [if_pos hs, if_pos (by rw [hp]), if_pos hps]
    cases hnet : (if cfg.compare_networking = true then
        adaptersLoop .network "VirtualEthAdapter" attribs_default_veth 0
          resp.profileDoc.netAdapters
      else Except.ok []) with
    | error e =>
      simp only [hnet]
      rw [guarded_loop_error_val _ .network "VirtualEthAdapter"
        attribs_default_veth 0 resp.profileDoc.netAdapters e hnet]
    | ok net =>
      cases hvfc : (if cfg.compare_virtual_fc = true then
          adaptersLoop .vfc "VirtualFcAdapter" attribs_default_vfc 0
            resp.profileDoc.fcAdapters
        else Except.ok []) with
      | error e =>
        simp only [hnet, hvfc]
        rw [guarded_loop_error_val _ .vfc "VirtualFcAdapter"
          attribs_default_vfc 0 resp.profileDoc.fcAdapters e hvfc]
      | ok vfc =>
        have hloop : (if cfg.compare_virtual_scsi = true then
            adaptersLoop .vscsi "VirtualScsiAdapter" attribs_default_vscsi 0
              resp.profileDoc.scsiAdapters
          else .ok []) = Except.error "AttributeError" := by
          rw [if_pos hflag]
          exact adaptersLoop_error_of_mem .vscsi "VirtualScsiAdapter"
            attribs_default_vscsi t hats resp.profileDoc.scsiAdapters 0 a
            ha hm
        simp only [hnet, hvfc, hloop]
  · intro g aname idx ats a r t hr ht hm
    exact adapterAttribs_ok_mem g aname idx a ats r hr t ht hm

/-- A host whose profile document has one network adapter element missing
the `PortVLANID` and `VirtualSwitchName` children. -/
def respC6 : HostResponses :=
  ⟨200, ⟨[], true⟩, 200,
   { scalars := []
     netAdapters := [⟨[("VirtualSlotNumber", some "2")]⟩]
     fcAdapters := []
     scsiAdapters := [] }⟩

/-- C6 counterexample: on `respC6` the fetch does not complete with an
absent value — it raises `AttributeError`, contradicting the claim that a
missing field element inside a present adapter never causes fetch failure. -/
theorem c6_counterexample :
    get_lpar_config cfgAll respC6 = .error "AttributeError" := rfl

/-- A host whose single fibre-channel adapter is missing the `AdapterType`
child element. -/
def respC6w : HostResponses :=
  ⟨200, ⟨[], true⟩, 200,
   { scalars := []
     netAdapters := []
     fcAdapters := [⟨[("VirtualSlotNumber", some "4")]⟩]
     scsiAdapters := [] }⟩

/-- A network adapter element whose `PortVLANID` child is present but has
no text. -/
def aPresentEmpty : AdapterElem :=
  ⟨[("VirtualSlotNumber", some "2"), ("PortVLANID", none),
    ("VirtualSwitchName", some "ETHERNET0")]⟩

/-- The record `adapterAttribs` extracts from `aPresentEmpty` at index 0. -/
def recPresentEmpty : ProfileRecord :=
  [(⟨.network, "VirtualEthAdapter_0_VirtualSlotNumber"⟩, some "2"),
   (⟨.network, "VirtualEthAdapter_0_PortVLANID"⟩, none),
   (⟨.network, "VirtualEthAdapter_0_VirtualSwitchName"⟩, some "ETHERNET0")]

/-- C6 amended applied concretely: the fibre-channel adapter of `respC6w`
missing `AdapterType` crashes the fetch, and the present-but-empty
`PortVLANID` of `aPresentEmpty` is surfaced as the absent value. -/
theorem c6_amended_witness :
    get_lpar_config cfgAll respC6w = .error "AttributeError"
      ∧ ((⟨.network, "VirtualEthAdapter_0_PortVLANID"⟩ : Key), (none : Value))
          ∈ recPresentEmpty := by
  have h := c6_missing_adapter_field cfgAll respC6w (by decide) (by decide)
    (by decide)
  refine ⟨?_, ?_⟩
  · exact h.2.1 ⟨[("VirtualSlotNumber", some "4")]⟩ (by decide) "AdapterType"
      (by decide) (by decide) (by decide)
  · exact h.2.2.2 .network "VirtualEthAdapter" 0 attribs_default_veth
      aPresentEmpty recPresentEmpty "PortVLANID" rfl (by decide) (by decide)

/-! ## Claim C8: disabled groups contribute no keys -/

theorem extractScalars_group (g : Group) (ats : List String)
    (scal : List (String × Option String)) (p : Key × Value)
    (hp : p ∈ extractScalars g ats scal) : p.1.group = g := by
  unfold extractScalars at hp
  rcases List.mem_map.mp hp with ⟨t, _, hpt⟩
  rw [← hpt]

theorem adapterAttribs_group (g : Group) (aname : String) (idx : Nat)
    (a : AdapterElem) :
    ∀ (ats : List String) (r : ProfileRecord),
      adapterAttribs g aname idx ats a = .ok r →
      ∀ p ∈ r, p.1.group = g := by
  intro ats
  induction ats with
  | nil =>
    intro r hr p hp
    unfold adapterAttribs at hr
    cases hr
    simp at hp
  | cons t0 ts ih =>
    intro r hr p hp
    unfold adapterAttribs at hr
    cases hl : List.lookup t0 a.fields with
    | none => rw [hl] at hr; exact Except.noConfusion hr
    | some v =>
      rw [hl] at hr
      cases hrec : adapterAttribs g aname idx ts a with
      | error e => rw [hrec] at hr; exact Except.noConfusion hr
      | ok rest =>
        rw [hrec] at hr
        cases hr
        rcases List.mem_cons.mp hp with h1 | h1
        · rw [h1]
        · exact ih rest hrec p h1

theorem adaptersLoop_group (g : Group) (aname : String) (ats : List String) :
    ∀ (l : List AdapterElem) (idx : Nat) (r : ProfileRecord),
      adaptersLoop g aname ats idx l = .ok r →
      ∀ p ∈ r, p.1.group = g := by
  intro l
  induction l with
  | nil =>
    intro idx r hr p hp
    unfold adaptersLoop at hr
    cases hr
    simp at hp
  | cons a0 rest ih =>
    intro idx r hr p hp
    unfold adaptersLoop at hr
    cases hA : adapterAttribs g aname idx ats a0 with
    | error e => rw [hA] at hr; exact Except.noConfusion hr
    | ok r1 =>
      rw [hA] at hr
      cases hL : adaptersLoop g aname ats (idx + 1) rest with
      | error e => rw [hL] at hr; exact Except.noConfusion hr
      | ok r2 =>
        rw [hL] at hr
        cases hr
        rcases List.mem_append.mp hp with h1 | h1
        · exact adapterAttribs_group g aname idx a0 ats r1 hA p h1
        · exact ih (idx + 1) r2 hL p h1

theorem guarded_scalars_ne (cfg : Config) (g : Group)
    (hflag : cfg.flag g = false) (g0 : Group) (ats : List String)
    (scal : List (String × Option String)) :
    ∀ p ∈ (if cfg.flag g0 = true then extractScalars g0 ats scal else []),
      p.1.group ≠ g := by
  intro p hp heq
  by_cases hf : cfg.flag g0 = true
  · rw [if_pos hf] at hp
    have hg := extractScalars_group g0 ats scal p hp
    have hg0 : g0 = g := hg ▸ heq
    rw [hg0, hflag] at hf
    exact Bool.noConfusion hf
  · rw [if_neg hf] at hp
    simp at hp

theorem guarded_adapters_ne (cfg : Config) (g : Group)
    (hflag : cfg.flag g = false) (g0 : Group) (aname : String)
    (ats : List String) (l : List AdapterElem) (net : ProfileRecord)
    (hnet : (if cfg.flag g0 = true then adaptersLoop g0 aname ats 0 l
             else Except.ok []) = Except.ok net) :
    ∀ p ∈ net, p.1.group ≠ g := by
  intro p hp heq
  by_cases hf : cfg.flag g0 = true
  · rw [if_pos hf] at hnet
    have hg := adaptersLoop_group g0 aname ats l 0 net hnet p hp
    have hg0 : g0 = g := hg ▸ heq
    rw [hg0, hflag] at hf
    exact Bool.noConfusion hf
  · rw [if_neg hf] at hnet
    cases hnet
    simp at hp

/-- C8: if a group's comparison flag is disabled, no key of that group
appears in a record returned by `get_lpar_config`, whatever the source
documents contain. -/
theorem c8_disabled_group (cfg : Config) (resp : HostResponses) (g : Group)
    (r : ProfileRecord) (hflag : cfg.flag g = false)
    (hok : get_lpar_config cfg resp = Except.ok (.record r)) :
    ∀ p ∈ r, p.1.group ≠ g := by
  unfold get_lpar_config at hok
  by_cases h200 : resp.searchStatus = 200
  · rw [if_pos h200] at hok
    by_cases hassoc : resp.searchDoc.hasAssociatedProfile = true
    · rw [if_pos hassoc] at hok
      by_cases hps : resp.profileStatus = 200
      · rw [if_pos hps] at hok
        cases hnet : (if cfg.compare_networking = true then
            adaptersLoop .network "VirtualEthAdapter" attribs_default_veth 0
              resp.profileDoc.netAdapters
          else Except.ok []) with
        | error e => rw [hnet] at hok; exact Except.noConfusion hok
        | ok net =>
          rw [hnet] at hok
          cases hvfc : (if cfg.compare_virtual_fc = true then
              adaptersLoop .vfc "VirtualFcAdapter" attribs_default_vfc 0
                resp.profileDoc.fcAdapters
            else Except.ok []) with
          | error e => rw [hvfc] at hok; exact Except.noConfusion hok
          | ok vfc =>
            rw [hvfc] at hok
            cases hscsi : (if cfg.compare_virtual_scsi = true then
                adaptersLoop .vscsi "VirtualScsiAdapter" attribs_default_vscsi
                  0 resp.profileDoc.scsiAdapters
              else Except.ok []) with
            | error e => rw [hscsi] at hok; exact Except.noConfusion hok
            | ok vscsi =>
              rw [hscsi] at hok
              have hr : (if cfg.compare_general = true then
                    extractScalars .general attribs_general_general
                      resp.searchDoc.scalars
                  else [])
                  ++ (if cfg.compare_general = true then
                        extractScalars .general attribs_default_general
                          resp.profileDoc.scalars
                      else [])
                  ++ (if cfg.compare_processors = true then
                        extractScalars .processor attribs_default_processor
                          resp.profileDoc.scalars
                      else [])
                  ++ (if cfg.compare_memory = true then
                        extractScalars .memory attribs_default_memory
                          resp.profileDoc.scalars
                      else [])
                  ++ net ++ vfc ++ vscsi = r := by
                have h1 := Except.ok.inj hok
                exact FetchOut.record.inj h1
              intro p hp
              rw [← hr] at hp
              rcases List.mem_append.mp hp with h1 | h1
              · rcases List.mem_append.mp h1 with h2 | h2
                · rcases List.mem_append.mp h2 with h3 | h3
                  · rcases List.mem_append.mp h3 with h4 | h4
                    · rcases List.mem_append.mp h4 with h5 | h5
                      · rcases List.mem_append.mp h5 with h6 | h6
                        · exact guarded_scalars_ne cfg g hflag .general
                            attribs_general_general resp.searchDoc.scalars p h6
                        · exact guarded_scalars_ne cfg g hflag .general
                            attribs_default_general resp.profileDoc.scalars p h6
                      · exact guarded_scalars_ne cfg g hflag .processor
                          attribs_default_processor resp.profileDoc.scalars p h5
                    · exact guarded_scalars_ne cfg g hflag .memory
                        attribs_default_memory resp.profileDoc.scalars p h4
                  · exact guarded_adapters_ne cfg g hflag .network
                      "VirtualEthAdapter" attribs_default_veth
                      resp.profileDoc.netAdapters net hnet p h3
                · exact guarded_adapters_ne cfg g hflag .vfc
                    "VirtualFcAdapter" attribs_default_vfc
                    resp.profileDoc.fcAdapters vfc hvfc p h2
              · exact guarded_adapters_ne cfg g hflag .vscsi
                  "VirtualScsiAdapter" attribs_default_vscsi
                  resp.profileDoc.scsiAdapters vscsi hscsi p h1
      · rw [if_neg hps] at hok
        simp at hok
    · rw [if_neg hassoc] at hok
      simp at hok
  · rw [if_neg h200] at hok
    by_cases h204 : resp.searchStatus = 204
    · rw [if_pos h204] at hok
      simp at hok
    · rw [if_neg h204] at hok
      simp at hok

/-- Comparison flags with memory extraction disabled. -/
def cfgNoMem : Config := ⟨true, false, false, false, false, false⟩

/-- A host whose default-profile document does contain memory data. -/
def respMem : HostResponses :=
  ⟨200,
   ⟨[("PartitionType", some "AIX"),
     ("CurrentProcessorCompatibilityMode", some "P9")], true⟩,
   200,
   { scalars := [("ProfileName", some "default"), ("DesiredMemory", some "4096")]
     netAdapters := []
     fcAdapters := []
     scsiAdapters := [] }⟩

/-- The record `get_lpar_config cfgNoMem respMem` produces. -/
def recNoMem : ProfileRecord :=
  [(⟨.general, "PartitionType"⟩, some "AIX"),
   (⟨.general, "CurrentProcessorCompatibilityMode"⟩, some "P9"),
   (⟨.general, "ProfileName"⟩, some "default")]

/-- C8 applied to a host whose profile document carries `DesiredMemory` but
whose configuration disables memory comparison, at the record's first
entry. -/
theorem c8_witness :
    ((⟨.general, "PartitionType"⟩ : Key), (some "AIX" : Value)).1.group
      ≠ Group.memory :=
  c8_disabled_group cfgNoMem respMem Group.memory recNoMem (by decide) rfl
    (⟨.general, "PartitionType"⟩, some "AIX") (by decide)

/-! ## Claim C7: host failover -/

theorem failover_exhaust (F : String → String → LparData) (n1 n2 : String) :
    ∀ (hosts : List String) (hlast : String) (d1 d2 : LparData),
      d1.isDict = false → (∀ x ∈ hosts, (F x n1).isDict = false) →
      (F hlast n1).isDict = false →
      (failover F n1 n2 (hosts ++ [hlast]) d1 d2).1 = F hlast n1 := by
  intro hosts
  induction hosts with
  | nil =>
    intro hlast d1 d2 hd1 _ hlastf
    simp [failover, hostStep, hd1, hlastf]
  | cons h hs ih =>
    intro hlast d1 d2 hd1 hall hlastf
    have hd1n : (F h n1).isDict = false := hall h (List.mem_cons_self h hs)
    have hallt : ∀ x ∈ hs, (F x n1).isDict = false :=
      fun x hx => hall x (List.mem_cons_of_mem h hx)
    show (failover F n1 n2 (h :: (hs ++ [hlast])) d1 d2).1 = F hlast n1
    unfold failover
    rw [if_neg (by simp [hd1])]
    simp only [hostStep, hd1, Bool.false_eq_true, if_false]
    exact ih hlast (F h n1)
      (if d2.isDict = true then d2 else F h n2) hd1n hallt hlastf

/-- C7: (a) with hosts `[h1, h2]`, when `h1` reports the partition not
found (code 1) and `h2` finds it, the loop ends with the found record, and
the trace closes the `h1` session strictly before opening the `h2` session;
(b) when every host's fetch for the partition fails to produce a dict, the
loop returns the outcome observed on the last host. -/
theorem c7_failover (F : String → String → LparData) (n1 n2 h1 h2 : String)
    (r : ProfileRecord) (hs : List String) (hlast : String) :
    (F h1 n1 = .ret 1 → F h2 n1 = .record r →
       (failover F n1 n2 [h1, h2] .undef .undef).1 = .record r
         ∧ ∃ t1 t2, (failover F n1 n2 [h1, h2] .undef .undef).2.2
               = t1 ++ HmcEvent.sessionOpen h2 :: t2
             ∧ HmcEvent.sessionClose h1 ∈ t1)
      ∧ ((∀ x ∈ hs, (F x n1).isDict = false) → (F hlast n1).isDict = false →
          (failover F n1 n2 (hs ++ [hlast]) .undef .undef).1 = F hlast n1) := by
  constructor
  · intro hF1 hF2
    have hcomp : failover F n1 n2 [h1, h2] .undef .undef
        = (.record r,
           (if (F h1 n2).isDict then F h1 n2 else F h2 n2),
           [HmcEvent.sessionOpen h1, HmcEvent.fetchReq h1 n1,
            HmcEvent.fetchReq h1 n2, HmcEvent.sessionClose h1,
            HmcEvent.sessionOpen h2, HmcEvent.fetchReq h2 n1]
             ++ (if (F h1 n2).isDict then [] else [HmcEvent.fetchReq h2 n2])
             ++ [HmcEvent.sessionClose h2]) := by
      by_cases hd : (F h1 n2).isDict
      · simp [failover, hostStep, hF1, hF2, hd, LparData.isDict]
      · simp [failover, hostStep, hF1, hF2, hd, LparData.isDict]
    refine ⟨by rw [hcomp], ?_⟩
    refine ⟨[HmcEvent.sessionOpen h1, HmcEvent.fetchReq h1 n1,
             HmcEvent.fetchReq h1 n2, HmcEvent.sessionClose h1],
            [HmcEvent.fetchReq h2 n1]
              ++ (if (F h1 n2).isDict then [] else [HmcEvent.fetchReq h2 n2])
              ++ [HmcEvent.sessionClose h2], ?_, by simp⟩
    rw [hcomp]
    simp

  · intro hall hlastf
    exact failover_exhaust F n1 n2 hs hlast .undef .undef rfl hall hlastf

/-- The record found for the first partition in the witness scenario. -/
def recT : ProfileRecord := [(kPT, some "AIX")]

/-- A fetch oracle: host `hmcB` finds every partition, the others answer
code 1 (not found). -/
def Ftest : String → String → LparData :=
  fun h _ => if h = "hmcB" then .record recT else .ret 1

/-- C7 applied to the two-host scenario `["hmcA", "hmcB"]` and to the
exhausted single-host list `["hmcA"]`. -/
theorem c7_witness :
    (failover Ftest "p1" "p2" ["hmcA", "hmcB"] .undef .undef).1 = .record recT
      ∧ (failover Ftest "p1" "p2" ["hmcA"] .undef .undef).1
          = Ftest "hmcA" "p1" := by
  have h := c7_failover Ftest "p1" "p2" "hmcA" "hmcB" recT [] "hmcA"
  exact ⟨(h.1 (by decide) (by decide)).1, h.2 (by decide) (by decide)⟩

end HmcDiff
